import Mathlib

/-!
Shallow embedding of `src/db/migration/new_migrator.go` (package `migration`).

The Go file drives schema migrations against a SQL database.  We embed it as
a deterministic interpreter over an explicit database state plus an event
trace:

* `DBState` holds the one table the code touches, `migration_version`
  (`none` = table absent, `some rows` = present with its `version` rows,
  read as integers the way `checkLegacyVersion` scans them), together with
  `executed`, the list of migration statements whose effects have been
  committed (direct `db.Exec` commits immediately; `tx.Exec` effects land
  only when `tx.Commit` succeeds, and are discarded by `tx.Rollback`).
* `Event` records every database/lock interaction in order, so that claims
  about ordering and about which operations ever happen are decidable.
* `Env` supplies the outside world: the asset catalogue (`Asset` is
  generated bindata, not part of the source file) and the success/failure
  oracle for each SQL interaction that can fail.

Statements and file bodies are `List Char`; `strings.Split(s, ";")` splits
on the single character `';'` and is embedded character by character.
-/

namespace Migration

/-- The constant `noTransaction = "NO_TRANSACTION;"` from the source
(note that it contains the `';'` delimiter itself). -/
def noTransaction : List Char := "NO_TRANSACTION;".toList

/-- The constant `postgresTableName = "migration_version"` from the source. -/
def postgresTableName : String := "migration_version"

/-- Accumulator form of Go `strings.Split(s, ";")`: `acc` holds the current
chunk reversed. -/
def splitSemiAux : List Char → List Char → List (List Char)
  | [], acc => [acc.reverse]
  | c :: rest, acc =>
    if c = ';' then acc.reverse :: splitSemiAux rest []
    else splitSemiAux rest (c :: acc)

/-- Go `strings.Split(s, ";")` on a character list. -/
def splitSemi (s : List Char) : List (List Char) := splitSemiAux s []

/-- The errors the embedded code can return (Go returns `error` values; we
keep the structured content each `fmt.Errorf`/driver error carries). -/
inductive Err where
  /-- `Asset(name)` failed: the migration file is not in the catalogue. -/
  | assetMissing (name : String)
  /-- a `db.Exec`/`tx.Exec` of a migration statement failed -/
  | stmtErr (stmt : List Char)
  /-- `fmt.Errorf("Must upgrade from db version %d ..., current db version: %d",
  oldMigrationLastVersion, dbVersion)` — carries both integers. -/
  | unsupportedLegacy (expected found : Int)
  /-- the `DROP TABLE IF EXISTS migration_version` statement failed -/
  | dropFailed
  /-- `db.Begin()` failed -/
  | beginFailed
  /-- Go panic from indexing `statements[0]` on an empty slice -/
  | indexOutOfRange
  deriving DecidableEq

/-- One observable interaction with the database or the lock backend. -/
inductive Event where
  /-- `CREATE TABLE IF NOT EXISTS migration_version ...` -/
  | createTable
  /-- `lockFactory.Acquire(...)` — never emitted by the live code
  (`openWithLock` is commented out), present so its absence is statable. -/
  | acquireLock
  /-- `lock.Release()` — likewise never emitted by the live code. -/
  | releaseLock
  /-- the `information_schema.tables` existence query in `existLegacyVersion` -/
  | legacyExistsQuery
  /-- `SELECT version FROM migration_version` in `checkLegacyVersion` -/
  | legacyVersionQuery
  /-- the discarded `SELECT version from migration_version ORDER BY DESC`
  in `CurrentVersion` -/
  | currentVersionQuery
  /-- `DROP TABLE IF EXISTS migration_version` -/
  | dropLegacy
  /-- `db.Begin()` -/
  | txBegin
  /-- `tx.Commit()` -/
  | txCommit
  /-- `tx.Rollback()` -/
  | txRollback
  /-- a direct `db.Exec(statement)` of a migration statement -/
  | exec (stmt : List Char)
  /-- a `tx.Exec(statement)` inside an open transaction -/
  | txExec (stmt : List Char)
  deriving DecidableEq

/-- The database as the code sees it: the `migration_version` table (absent
or present with its rows) and the committed effects of migration
statements, in commit order. -/
structure DBState where
  mvTable : Option (List Int)
  executed : List (List Char)
  deriving DecidableEq

/-- Database state plus the trace of interactions so far. -/
structure MState where
  db : DBState
  trace : List Event
  deriving DecidableEq

/-- Append one event to the trace. -/
def emit (st : MState) (e : Event) : MState :=
  { st with trace := st.trace ++ [e] }

/-- Record a committed migration statement in the database state. -/
def commitStmt (s : List Char) (st : MState) : MState :=
  { st with db := { st.db with executed := st.db.executed ++ [s] } }

/-- A fresh database: no `migration_version` table, nothing executed. -/
def fresh : MState := ⟨⟨none, []⟩, []⟩

/-- The outside world: the asset catalogue and the failure oracle for every
fallible SQL interaction. -/
structure Env where
  /-- generated `Asset(name)`: the raw bytes of a migration file -/
  asset : String → Option (List Char)
  /-- whether `db.Exec`/`tx.Exec` of this migration statement succeeds -/
  execOk : List Char → Bool
  /-- whether `tx.Commit()` succeeds -/
  commitOk : Bool
  /-- a driver fault on `Scan` of `SELECT version FROM migration_version`
  even though the table has rows -/
  legacyScanErr : Bool
  /-- a driver fault on the `information_schema.tables` query
  (`existLegacyVersion` then returns `true`: `err != nil || exists`) -/
  existsErr : Bool
  /-- whether `DROP TABLE IF EXISTS migration_version` fails -/
  dropErr : Bool
  /-- whether `db.Begin()` fails -/
  beginErr : Bool

/-- `checkOrCreateSchemaMigrationsTable`: `CREATE TABLE IF NOT EXISTS
migration_version (version varchar(255) not null primary key)`.  Creating a
table that already exists is a no-op; the model's DDL layer itself does not
fault (no claim depends on a `CREATE TABLE` connectivity failure). -/
def checkOrCreateSchemaMigrationsTable (st : MState) : MState :=
  match st.db.mvTable with
  | none => { emit st .createTable with db := ⟨some [], st.db.executed⟩ }
  | some _ => emit st .createTable

/-- `existLegacyVersion`: runs the `information_schema.tables` existence
query and returns `err != nil || exists`. -/
def existLegacyVersion (env : Env) (st : MState) : MState × Bool :=
  (emit st .legacyExistsQuery, env.existsErr || st.db.mvTable.isSome)

/-- `oldMigrationLastVersion` from `checkLegacyVersion`. -/
def oldMigrationLastVersion : Int := 189

/-- `newMigrationStartVersion` from `checkLegacyVersion`. -/
def newMigrationStartVersion : Int := 1510262030

/-- The `DROP TABLE IF EXISTS migration_version` step of
`checkLegacyVersion` (the state already carries the `dropLegacy` event). -/
def dropLegacyTable (env : Env) (st : MState) : MState × Int × Option Err :=
  if env.dropErr then (st, -1, some .dropFailed)
  else ({ st with db := { st.db with mvTable := none } },
        newMigrationStartVersion, none)

/-- The body of `checkLegacyVersion` after the existence check: scan the
single `version` row (a `Scan` failure — no table, no rows, or a driver
fault — yields `(-1, nil)`), compare against `oldMigrationLastVersion`,
then drop the legacy table.  The state already carries the
`legacyVersionQuery` event. -/
def scanLegacyRow (env : Env) (st : MState) : MState × Int × Option Err :=
  match st.db.mvTable with
  | none => (st, -1, none)
  | some rows =>
    if env.legacyScanErr then (st, -1, none)
    else
      match rows with
      | [] => (st, -1, none)
      | dbVersion :: _ =>
        if dbVersion ≠ oldMigrationLastVersion then
          (st, -1, some (.unsupportedLegacy oldMigrationLastVersion dbVersion))
        else dropLegacyTable env (emit st .dropLegacy)

/-- `checkLegacyVersion`: existence check, then scan/compare/drop. -/
def checkLegacyVersion (env : Env) (st : MState) : MState × Int × Option Err :=
  match existLegacyVersion env st with
  | (st1, false) => (st1, -1, none)
  | (st1, true) => scanLegacyRow env (emit st1 .legacyVersionQuery)

/-- `ParseFile`: `Asset(migrationFileName)` then
`strings.Split(contents, ";")`. -/
def ParseFile (env : Env) (migrationFileName : String) :
    Option (List (List Char)) :=
  (env.asset migrationFileName).map splitSemi

/-- The `for _, statement := range statements` loop of `runTransaction`:
each `tx.Exec` is traced; the first failure sets `migrationErr` and returns
it.  Effects stay buffered in the transaction (they reach `executed` only
through the commit in `runTransaction`). -/
def txExecLoop (env : Env) : List (List Char) → MState → MState × Option Err
  | [], st => (st, none)
  | s :: rest, st =>
    if env.execOk s then txExecLoop env rest (emit st (.txExec s))
    else (emit st (.txExec s), some (.stmtErr s))

/-- `runTransaction`: `db.Begin()`, the statement loop, and the deferred
closure.  On `migrationErr ≠ nil` the deferral rolls back and the loop's
`return migrationErr` stands.  Otherwise the deferral commits — but the
deferred closure's `return commitErr` value is discarded by Go, so a commit
failure still leaves `runTransaction` returning `nil` while the
transaction's effects are lost. -/
def commitTx (env : Env) (statements : List (List Char)) (st : MState) :
    MState × Option Err :=
  if env.commitOk then
    ({ st with db := { st.db with executed := st.db.executed ++ statements } },
     none)
  else (st, none)

/-- The deferred closure of `runTransaction` applied to the loop's outcome:
on `migrationErr ≠ nil` it rolls back and the loop's `return migrationErr`
stands; otherwise it commits (`commitTx`). -/
def finishTransaction (env : Env) (statements : List (List Char)) :
    MState × Option Err → MState × Option Err
  | (st, some e) => (emit st .txRollback, some e)
  | (st, none) => commitTx env statements (emit st .txCommit)

def runTransaction (env : Env) (st : MState) (statements : List (List Char)) :
    MState × Option Err :=
  if env.beginErr then (st, some .beginFailed)
  else finishTransaction env statements
    (txExecLoop env statements (emit st .txBegin))

/-- The `statements[0] == noTransaction` branch of `Up`: each remaining
statement runs through a direct `db.Exec`, committing immediately; the
first failure is returned. -/
def execLoop (env : Env) : List (List Char) → MState → MState × Option Err
  | [], st => (st, none)
  | s :: rest, st =>
    if env.execOk s then execLoop env rest (commitStmt s (emit st (.exec s)))
    else (emit st (.exec s), some (.stmtErr s))

/-- The `for _, migration := range self.migrationFiles` loop of `Up`:
`ParseFile`, the `statements[0]` sentinel test (indexing an empty slice
would panic — `splitSemi` never produces one), then either the direct-exec
loop over `statements[1:]` or `runTransaction` over all of `statements`. -/
def upLoop (env : Env) : List String → MState → MState × Option Err
  | [], st => (st, none)
  | f :: rest, st =>
    match ParseFile env f with
    | none => (st, some (.assetMissing f))
    | some statements =>
      match statements with
      | [] => (st, some .indexOutOfRange)
      | s0 :: tail =>
        if s0 = noTransaction then
          match execLoop env tail st with
          | (st, some e) => (st, some e)
          | (st, none) => upLoop env rest st
        else
          match runTransaction env st (s0 :: tail) with
          | (st, some e) => (st, some e)
          | (st, none) => upLoop env rest st

/-- `migrator.Up`: ensure the table, `_, err = self.checkLegacyVersion()`
(the returned version is discarded in both outcomes), then the migration
loop.  The live code contains no lock acquisition (`openWithLock` is
commented out) and records no applied versions. -/
def Up (env : Env) (migrationFiles : List String) (st : MState) :
    MState × Option Err :=
  match checkLegacyVersion env (checkOrCreateSchemaMigrationsTable st) with
  | (st1, _, some e) => (st1, some e)
  | (st1, _, none) => upLoop env migrationFiles st1

/-- `migrator.CurrentVersion`: ensure the table, run
`db.Exec("SELECT version from migration_version ORDER BY DESC")` with both
the result and the error discarded, and return `(0, nil)`. -/
def CurrentVersion (st : MState) : MState × Int × Option Err :=
  (emit (checkOrCreateSchemaMigrationsTable st) .currentVersionQuery, 0, none)

/-- `migrator.Down`: ensures the table and returns `nil`. -/
def Down (st : MState) (_version : Int) : MState × Option Err :=
  (checkOrCreateSchemaMigrationsTable st, none)

/-- `migrator.SupportedVersion`: returns `(0, nil)`. -/
def SupportedVersion : Int × Option Err := (0, none)

end Migration

namespace Migration

/-! Concrete environments and states used to evaluate the embedded code. -/

/-- One ordinary (non-sentinel) migration statement. -/
def stmtCreateFoo : List Char := "CREATE TABLE foo (x int)".toList

/-- A second ordinary statement. -/
def stmtSelectOne : List Char := "SELECT 1".toList

/-- Catalogue with the single file `m1` containing one ordinary statement;
every SQL interaction succeeds. -/
def env1 : Env :=
  { asset := fun n => if n = "m1" then some stmtCreateFoo else none
    execOk := fun _ => true
    commitOk := true
    legacyScanErr := false
    existsErr := false
    dropErr := false
    beginErr := false }

/-- A statement whose execution the oracle of `env7` refuses. -/
def stmtBad : List Char := "BAD".toList

/-- Like `env1` but `db.Exec`/`tx.Exec` fails exactly on `stmtBad`. -/
def env7 : Env := { env1 with execOk := fun s => decide (s ≠ stmtBad) }

/-- Catalogue holding one file whose name carries the legacy-era key 189. -/
def env8 : Env :=
  { env1 with asset := fun n =>
      if n = "189_cleanup.up.sql" then some stmtSelectOne else none }

/-- Like `env1` but every `tx.Commit()` fails. -/
def env9 : Env := { env1 with commitOk := false }

/-- Like `env8` but the scan of the legacy version row faults. -/
def envScan : Env := { env8 with legacyScanErr := true }

/-- Catalogue with two files; the names suggest their key order is the
reverse of the slice order. -/
def env2 : Env :=
  { env1 with asset := fun n =>
      if n = "b_second" then some stmtSelectOne
      else if n = "a_first" then some stmtCreateFoo else none }

/-- A database whose `migration_version` table holds the single row 5. -/
def st5 : MState := ⟨⟨some [5], []⟩, []⟩

/-- A database with a legacy `migration_version` row of 17 (≠ 189). -/
def stLegacyBad : MState := ⟨⟨some [17], []⟩, []⟩

/-- A database with a legacy `migration_version` row of exactly 189. -/
def stLegacy189 : MState := ⟨⟨some [189], []⟩, []⟩

/-! ## Helper lemmas -/

@[simp]
theorem emit_db (st : MState) (e : Event) : (emit st e).db = st.db := rfl

theorem splitSemiAux_ne_nil (s : List Char) :
    ∀ acc : List Char, splitSemiAux s acc ≠ [] := by
  induction s with
  | nil => intro acc; simp [splitSemiAux]
  | cons c rest ih =>
    intro acc
    simp only [splitSemiAux]
    by_cases hc : c = ';'
    · rw [if_pos hc]; simp
    · rw [if_neg hc]; exact ih (c :: acc)

theorem splitSemiAux_no_semi (s : List Char) :
    ∀ acc : List Char, ';' ∉ acc → ∀ x ∈ splitSemiAux s acc, ';' ∉ x := by
  induction s with
  | nil =>
    intro acc hacc x hx
    simp only [splitSemiAux, List.mem_singleton] at hx
    subst hx
    simpa using hacc
  | cons c rest ih =>
    intro acc hacc x hx
    simp only [splitSemiAux] at hx
    by_cases hc : c = ';'
    · rw [if_pos hc] at hx
      rcases List.mem_cons.mp hx with h1 | h2
      · subst h1; simpa using hacc
      · exact ih [] (by simp) x h2
    · rw [if_neg hc] at hx
      refine ih (c :: acc) ?_ x hx
      intro hmem
      rcases List.mem_cons.mp hmem with h1 | h2
      · exact hc h1.symm
      · exact hacc h2

theorem splitSemi_no_semi (s x : List Char) (hx : x ∈ splitSemi s) : ';' ∉ x :=
  splitSemiAux_no_semi s [] (by simp) x hx

theorem ParseFile_ne_some_nil (env : Env) (f : String) :
    ParseFile env f ≠ some ([] : List (List Char)) := by
  unfold ParseFile
  cases h : env.asset f with
  | none => simp
  | some body =>
    simp only [Option.map_some', ne_eq, Option.some.injEq]
    exact splitSemiAux_ne_nil body []

theorem txExecLoop_db (env : Env) (stmts : List (List Char)) (st : MState) :
    (txExecLoop env stmts st).1.db = st.db := by
  induction stmts generalizing st with
  | nil => rfl
  | cons s rest ih =>
    simp only [txExecLoop]
    by_cases h : env.execOk s
    · rw [if_pos h]; exact ih (emit st (.txExec s))
    · rw [if_neg h]; rfl

theorem txExecLoop_fails (env : Env) (stmts : List (List Char)) (st : MState)
    (h : ∃ s ∈ stmts, env.execOk s = false) :
    (txExecLoop env stmts st).2.isSome = true := by
  induction stmts generalizing st with
  | nil => simp at h
  | cons a rest ih =>
    rcases h with ⟨s, hs, hfail⟩
    simp only [txExecLoop]
    by_cases ha : env.execOk a
    · rw [if_pos ha]
      refine ih (emit st (.txExec a)) ?_
      rcases List.mem_cons.mp hs with h1 | h2
      · subst h1; rw [ha] at hfail; cases hfail
      · exact ⟨s, h2, hfail⟩
    · rw [if_neg ha]; rfl

theorem txExecLoop_no_ioor (env : Env) (stmts : List (List Char)) (st : MState) :
    (txExecLoop env stmts st).2 ≠ some Err.indexOutOfRange := by
  induction stmts generalizing st with
  | nil => simp [txExecLoop]
  | cons s rest ih =>
    simp only [txExecLoop]
    by_cases h : env.execOk s
    · rw [if_pos h]; exact ih (emit st (.txExec s))
    · rw [if_neg h]; simp

theorem commitTx_no_ioor (env : Env) (stmts : List (List Char)) (st : MState) :
    (commitTx env stmts st).2 ≠ some Err.indexOutOfRange := by
  unfold commitTx
  split <;> simp

theorem finishTransaction_no_ioor (env : Env) (stmts : List (List Char))
    (p : MState × Option Err) (hp : p.2 ≠ some Err.indexOutOfRange) :
    (finishTransaction env stmts p).2 ≠ some Err.indexOutOfRange := by
  rcases p with ⟨st, r⟩
  cases r with
  | some e => exact hp
  | none => exact commitTx_no_ioor env stmts (emit st .txCommit)

theorem runTransaction_no_ioor (env : Env) (st : MState)
    (stmts : List (List Char)) :
    (runTransaction env st stmts).2 ≠ some Err.indexOutOfRange := by
  unfold runTransaction
  by_cases hb : env.beginErr
  · rw [if_pos hb]; simp
  · rw [if_neg hb]
    exact finishTransaction_no_ioor env stmts _
      (txExecLoop_no_ioor env stmts (emit st .txBegin))

theorem execLoop_no_ioor (env : Env) (stmts : List (List Char)) (st : MState) :
    (execLoop env stmts st).2 ≠ some Err.indexOutOfRange := by
  induction stmts generalizing st with
  | nil => simp [execLoop]
  | cons s rest ih =>
    simp only [execLoop]
    by_cases h : env.execOk s
    · rw [if_pos h]
      exact ih _
    · rw [if_neg h]; simp

theorem dropLegacyTable_no_ioor (env : Env) (st : MState) :
    (dropLegacyTable env st).2.2 ≠ some Err.indexOutOfRange := by
  unfold dropLegacyTable
  split <;> simp

theorem scanLegacyRow_no_ioor (env : Env) (st : MState) :
    (scanLegacyRow env st).2.2 ≠ some Err.indexOutOfRange := by
  unfold scanLegacyRow
  split
  · simp
  · split
    · simp
    · split
      · simp
      · split
        · simp
        · exact dropLegacyTable_no_ioor env _

theorem checkLegacyVersion_no_ioor (env : Env) (st : MState) :
    (checkLegacyVersion env st).2.2 ≠ some Err.indexOutOfRange := by
  unfold checkLegacyVersion
  split
  · simp
  · exact scanLegacyRow_no_ioor env _

theorem upLoop_no_ioor (env : Env) (files : List String) (st : MState) :
    (upLoop env files st).2 ≠ some Err.indexOutOfRange := by
  induction files generalizing st with
  | nil => simp [upLoop]
  | cons f rest ih =>
    unfold upLoop
    split
    · simp
    next statements hp =>
      split
      · exact absurd hp (ParseFile_ne_some_nil env f)
      next s0 tail =>
        split
        · split
          next st1 e he =>
            have hel := execLoop_no_ioor env tail st
            rw [he] at hel
            simpa using hel
          next st1 he => exact ih st1
        · split
          next st1 e hr =>
            have hrt := runTransaction_no_ioor env st (s0 :: tail)
            rw [hr] at hrt
            simpa using hrt
          next st1 hr => exact ih st1

theorem finishTransaction_err (env : Env) (stmts : List (List Char))
    (st1 : MState) (e : Err) :
    finishTransaction env stmts (st1, some e) = (emit st1 .txRollback, some e) :=
  rfl

/-! ## Claim theorems -/

/-- C1: the spec says a second `Up()` with no new units leaves the Version
Store identical, re-executes nothing and returns no error.  The code keeps
no record of applied units and filters nothing, so the second call
re-executes the unit's statement: after two calls the committed-statement
log holds the statement twice. -/
theorem up_twice_reexecutes_statements :
    (Up env1 ["m1"] fresh).2 = none ∧
    (Up env1 ["m1"] fresh).1.db.executed = [stmtCreateFoo] ∧
    (Up env1 ["m1"] (Up env1 ["m1"] fresh).1).2 = none ∧
    (Up env1 ["m1"] (Up env1 ["m1"] fresh).1).1.db.executed
      = [stmtCreateFoo, stmtCreateFoo] := by
  decide

/-- C2: the spec says `Up()` executes exactly the units with key greater
than `max(currentVersion(), legacyFloor)`, ascending.  The code iterates
over every file of `migrationFiles` in slice order, with no filtering and
no sorting: both files run, in slice order, and a repeated call runs both
again. -/
theorem up_applies_all_files_unfiltered :
    (Up env2 ["b_second", "a_first"] fresh).2 = none ∧
    (Up env2 ["b_second", "a_first"] fresh).1.db.executed
      = [stmtSelectOne, stmtCreateFoo] ∧
    (Up env2 ["b_second", "a_first"]
        (Up env2 ["b_second", "a_first"] fresh).1).1.db.executed
      = [stmtSelectOne, stmtCreateFoo, stmtSelectOne, stmtCreateFoo] := by
  decide

/-- C3: the spec says each successfully applied unit gets an AppliedVersion
row before the next unit starts.  The code never inserts any row into
`migration_version`: after a successful `Up()` the table is still empty. -/
theorem up_inserts_no_applied_version_row :
    (Up env1 ["m1"] fresh).2 = none ∧
    (Up env1 ["m1"] fresh).1.db.mvTable = some [] := by
  decide

/-- C4: the spec says every `Up()` holds the distributed migration lock
around all schema reads and writes.  The live code never touches the lock
(`openWithLock` is commented out): the trace of a successful `Up()`
contains table creation and statement execution but no lock acquisition or
release. -/
theorem up_performs_schema_ops_without_lock :
    (Up env1 ["m1"] fresh).2 = none ∧
    Event.createTable ∈ (Up env1 ["m1"] fresh).1.trace ∧
    Event.txExec stmtCreateFoo ∈ (Up env1 ["m1"] fresh).1.trace ∧
    Event.acquireLock ∉ (Up env1 ["m1"] fresh).1.trace ∧
    Event.releaseLock ∉ (Up env1 ["m1"] fresh).1.trace := by
  decide

/-- C5: the spec says `CurrentVersion()` returns the maximum applied
version.  The code discards the result of its `SELECT` and returns the
constant `(0, nil)`: on a table holding the row 5 it still returns 0, the
same value as on a fresh database. -/
theorem currentVersion_constant_zero :
    (CurrentVersion st5).2 = (0, none) ∧
    (CurrentVersion fresh).2 = (0, none) ∧
    st5.db.mvTable = some [5] := by
  decide

/-- C6: the spec says a first split element equal to the sentinel token
switches the unit to non-transactional execution, and that the branch is
reachable.  Splitting on `';'` can never produce an element containing
`';'`, while the sentinel constant `noTransaction = "NO_TRANSACTION;"`
contains one — so no body whatsoever makes the first element equal the
sentinel, and the non-transactional branch of `Up` is dead code. -/
theorem sentinel_branch_unreachable (body s0 : List Char)
    (rest : List (List Char)) (h : splitSemi body = s0 :: rest) :
    s0 ≠ noTransaction := by
  intro he
  have hmem : s0 ∈ splitSemi body := by rw [h]; exact List.mem_cons_self s0 rest
  have hno : ';' ∉ s0 := splitSemi_no_semi body s0 hmem
  rw [he] at hno
  exact hno (by decide)

/-- Concrete instance for `sentinel_branch_unreachable`: the body
`"NO_TRANSACTION;SELECT 1"` splits into `["NO_TRANSACTION", "SELECT 1"]`,
whose head differs from the sentinel. -/
theorem sentinel_branch_unreachable_witness :
    splitSemi ("NO_TRANSACTION;SELECT 1".toList)
      = ["NO_TRANSACTION".toList, "SELECT 1".toList] ∧
    "NO_TRANSACTION".toList ≠ noTransaction :=
  ⟨by decide,
   sentinel_branch_unreachable ("NO_TRANSACTION;SELECT 1".toList)
     ("NO_TRANSACTION".toList) ["SELECT 1".toList] (by decide)⟩

/-- C7: if any statement of a transactional unit fails, `runTransaction`
returns the error, and the deferred rollback leaves no effect observable:
the committed-statement log and the `migration_version` table are exactly
as before, so in particular no AppliedVersion row for the unit exists. -/
theorem runTransaction_atomic (env : Env) (st : MState)
    (statements : List (List Char))
    (h : ∃ s ∈ statements, env.execOk s = false) :
    (runTransaction env st statements).2.isSome = true ∧
    (runTransaction env st statements).1.db.executed = st.db.executed ∧
    (runTransaction env st statements).1.db.mvTable = st.db.mvTable := by
  unfold runTransaction
  by_cases hb : env.beginErr
  · rw [if_pos hb]; exact ⟨rfl, rfl, rfl⟩
  · rw [if_neg hb]
    have hfail := txExecLoop_fails env statements (emit st .txBegin) h
    have hdb := txExecLoop_db env statements (emit st .txBegin)
    rcases hres : txExecLoop env statements (emit st .txBegin) with ⟨st1, r⟩
    rw [hres] at hfail hdb
    cases r with
    | none => simp at hfail
    | some e =>
      rw [finishTransaction_err]
      have hdb1 : st1.db = st.db := by simpa using hdb
      exact ⟨rfl, by simp [hdb1], by simp [hdb1]⟩

/-- Concrete instance for `runTransaction_atomic`: a three-statement unit
whose second statement fails under `env7` commits nothing, keeps the table
untouched and reports the failure. -/
theorem runTransaction_atomic_witness :
    (∃ s ∈ [stmtCreateFoo, stmtBad, stmtSelectOne], env7.execOk s = false) ∧
    ((runTransaction env7 st5 [stmtCreateFoo, stmtBad, stmtSelectOne]).2.isSome
        = true ∧
     (runTransaction env7 st5 [stmtCreateFoo, stmtBad, stmtSelectOne]).1.db.executed
        = st5.db.executed ∧
     (runTransaction env7 st5 [stmtCreateFoo, stmtBad, stmtSelectOne]).1.db.mvTable
        = st5.db.mvTable) :=
  ⟨by decide,
   runTransaction_atomic env7 st5 [stmtCreateFoo, stmtBad, stmtSelectOne]
     (by decide)⟩

/-- C8: with a legacy row ≠ 189, `Up()` fails with an error carrying 189
and the found value and changes nothing; with the row = 189 the legacy
table is dropped and `checkLegacyVersion` returns 1510262030 — but `Up`
discards that floor (`_, err = self.checkLegacyVersion()`) and still
executes the catalogued unit whose name carries the legacy-era key 189,
instead of treating units at or below the floor as already applied. -/
theorem legacy_checked_dropped_floor_discarded :
    (Up env8 ["189_cleanup.up.sql"] stLegacyBad).2
      = some (Err.unsupportedLegacy 189 17) ∧
    (Up env8 ["189_cleanup.up.sql"] stLegacyBad).1.db = stLegacyBad.db ∧
    (checkLegacyVersion env8 (checkOrCreateSchemaMigrationsTable stLegacy189)).2.1
      = newMigrationStartVersion ∧
    (Up env8 ["189_cleanup.up.sql"] stLegacy189).2 = none ∧
    (Up env8 ["189_cleanup.up.sql"] stLegacy189).1.db.mvTable = none ∧
    (Up env8 ["189_cleanup.up.sql"] stLegacy189).1.db.executed
      = [stmtSelectOne] := by
  decide

/-- C9: the spec says no failure is locally swallowed.  The code swallows
two: a `tx.Commit` failure (the deferred closure's return value is
discarded, so `Up` returns nil while the unit's effects were never
committed), and a failure to read the legacy version row
(`checkLegacyVersion` turns it into `(-1, nil)`). -/
theorem up_swallows_commit_and_scan_errors :
    (Up env9 ["m1"] fresh).2 = none ∧
    (Up env9 ["m1"] fresh).1.db.executed = [] ∧
    Event.txCommit ∈ (Up env9 ["m1"] fresh).1.trace ∧
    (checkLegacyVersion envScan stLegacyBad).2 = (-1, none) := by
  decide

/-- C10: splitting any body on `';'` yields at least one element, so the
`statements[0]` read in `Up` is always in bounds: no run of `Up` can end
in the out-of-bounds panic. -/
theorem up_first_statement_read_in_bounds (env : Env) (files : List String)
    (st : MState) :
    (∀ body : List Char, 1 ≤ (splitSemi body).length) ∧
    (Up env files st).2 ≠ some Err.indexOutOfRange := by
  constructor
  · intro body
    exact List.length_pos.mpr (splitSemiAux_ne_nil body [])
  · unfold Up
    split
    next st1 v e heq =>
      have hclv := checkLegacyVersion_no_ioor env
        (checkOrCreateSchemaMigrationsTable st)
      rw [heq] at hclv
      simpa using hclv
    next st1 v heq => exact upLoop_no_ioor env files st1

end Migration
